import Mathlib

/-!
Verification development for the slack-irc bridge (src/lib/bot.js).

The program is shallowly embedded: JS objects used as string-keyed maps become
association lists with JS object semantics (insertion order, overwrite in place,
unique keys); the per-(channel, nick) join-quiet queue becomes explicit state
passing over `QState`; JS runtime errors (TypeError on a property access of
`undefined`, ReferenceError on an unbound identifier) are modelled with
`Except JsError`, and, as in JS, mutations performed before a throw persist in
the returned state.  External collaborators (the Slack data store, the
`highlightUsername` helper, the emoji table) are parameters.
-/

namespace SlackIrc

/-! ## JS object helpers: string-keyed maps as association lists -/

/-- Lookup in a JS-object-like association list (keys are unique). -/
def objGet {α : Type} (l : List (String × α)) (k : String) : Option α :=
  match l with
  | [] => none
  | p :: t => if p.1 = k then some p.2 else objGet t k

/-- JS assignment `o[k] = v`: overwrite in place if present, else append. -/
def objSet {α : Type} (l : List (String × α)) (k : String) (v : α) : List (String × α) :=
  match l with
  | [] => [(k, v)]
  | p :: t => if p.1 = k then (k, v) :: t else p :: objSet t k v

/-- JS `delete o[k]`. -/
def objDelete {α : Type} (l : List (String × α)) (k : String) : List (String × α) :=
  match l with
  | [] => []
  | p :: t => if p.1 = k then t else p :: objDelete t k

/-! ## String helpers (JS string primitives, on the character list) -/

/-- JS `String.prototype.toLowerCase` (ASCII, as used for channel names and mute words). -/
def toLowerStr (s : String) : String := ⟨s.data.map Char.toLower⟩

/-- `needle` occurs inside `hay` (JS `hay.indexOf(needle) >= 0`). -/
def isSubList (needle : List Char) : List Char → Bool
  | [] => needle.isEmpty
  | c :: t => needle.isPrefixOf (c :: t) || isSubList needle t

/-- JS `hay.indexOf(needle) >= 0`. -/
def containsSub (hay needle : String) : Bool := isSubList needle.data hay.data

/-- JS `s.split(' ')[0]`. -/
def firstWord (s : String) : String := ⟨s.data.takeWhile (fun c => !(c == ' '))⟩

/-! ## Regex-chain scanners (the `.replace(regex, fn)` pipeline of `Bot.parseText`)

Each JS global-regex replace is modelled as a left-to-right scan: at each
position a step function either matches (returning the replacement characters
and the rest of the input after the match) or does not, in which case the
character is copied and the scan advances one position.  Replacements are not
rescanned, matching JS `String.prototype.replace` semantics.  The fuel is the
input length; every match consumes at least one character, so it never runs out.
-/

def scanGo (step : List Char → Option (List Char × List Char)) : Nat → List Char → List Char
  | _, [] => []
  | 0, l => l
  | fuel + 1, c :: cs =>
    match step (c :: cs) with
    | some (repl, rest) => repl ++ scanGo step fuel rest
    | none => c :: scanGo step fuel cs

def runScan (step : List Char → Option (List Char × List Char)) (s : String) : String :=
  ⟨scanGo step s.data.length s.data⟩

/-- Every pattern of the pipeline starts with a fixed trigger character; the
match attempt only fires when the head satisfies the trigger. -/
def guardHead (trig : Char → Bool) (body : List Char → Option (List Char × List Char)) :
    List Char → Option (List Char × List Char)
  | [] => none
  | c :: cs => if trig c then body (c :: cs) else none

def nlTrig : Char → Bool := fun c => c == '\n' || c == '\r'
def ltTrig : Char → Bool := fun c => c == '<'
def colonTrig : Char → Bool := fun c => c == ':'
def ampTrig : Char → Bool := fun c => c == '&'

/-- JS `\w`: `[A-Za-z0-9_]`. -/
def isWordChar (c : Char) : Bool := c.isAlphanum || c == '_'

/-- Greedy `\w*`: the longest word-character run and the rest. -/
def takeWhileWord : List Char → List Char × List Char
  | [] => ([], [])
  | c :: cs =>
    if isWordChar c then
      let p := takeWhileWord cs
      (c :: p.1, p.2)
    else ([], c :: cs)

/-- `/\n|\r\n|\r/g` replaced by one space (alternation tried left to right). -/
def newlineBody : List Char → Option (List Char × List Char)
  | [] => none
  | c :: cs =>
    if c = '\r' then
      match cs with
      | '\n' :: rest => some ([' '], rest)
      | _ => some ([' '], cs)
    else some ([' '], cs)

/-- A literal global replace such as `/<!channel>/g` or `/&lt;/g`. -/
def stepLit (pat repl : List Char) (s : List Char) : Option (List Char × List Char) :=
  if !pat.isEmpty && pat.isPrefixOf s then some (repl, s.drop pat.length) else none

/-- `/<#(C\w+)\|?(\w+)?>/g`: channel reference; prefer the readable label, else
`#` + the name from the data store. -/
def chanRefBody (chanById : String → String) : List Char → Option (List Char × List Char)
  | [] => none
  | _ :: rest =>
    match rest with
    | [] => none
    | c :: cs =>
      if c = '#' then
        match cs with
        | [] => none
        | d :: ds =>
          if d = 'C' then
            let p := takeWhileWord ds
            if p.1.isEmpty then none
            else
              let name := chanById ⟨'C' :: p.1⟩
              match p.2 with
              | [] => none
              | e :: es =>
                if e = '>' then some ('#' :: name.data, es)
                else if e = '|' then
                  let q := takeWhileWord es
                  match q.2 with
                  | [] => none
                  | f :: fs =>
                    if f = '>' then
                      some ((if q.1.isEmpty then '#' :: name.data else q.1), fs)
                    else none
                else none
          else none
      else none

/-- `/<@(U\w+)\|?(\w+)?>/g`: user reference; prefer the readable label, else
`@` + the name from the data store. -/
def userRefBody (userById : String → String) : List Char → Option (List Char × List Char)
  | [] => none
  | _ :: rest =>
    match rest with
    | [] => none
    | c :: cs =>
      if c = '@' then
        match cs with
        | [] => none
        | d :: ds =>
          if d = 'U' then
            let p := takeWhileWord ds
            if p.1.isEmpty then none
            else
              let name := userById ⟨'U' :: p.1⟩
              match p.2 with
              | [] => none
              | e :: es =>
                if e = '>' then some ('@' :: name.data, es)
                else if e = '|' then
                  let q := takeWhileWord es
                  match q.2 with
                  | [] => none
                  | f :: fs =>
                    if f = '>' then
                      some ((if q.1.isEmpty then '@' :: name.data else q.1), fs)
                    else none
                else none
          else none
      else none

/-- Content of `[^|]+?>`: everything up to the first `>`, failing on a `|`. -/
def splitAtGtNoBar : List Char → Option (List Char × List Char)
  | [] => none
  | c :: cs =>
    if c = '>' then some ([], cs)
    else if c = '|' then none
    else (splitAtGtNoBar cs).map (fun p => (c :: p.1, p.2))

/-- `/<(?!!)([^|]+?)>/g`: unwrap a generic link token, keeping its content. -/
def linkBody : List Char → Option (List Char × List Char)
  | [] => none
  | _ :: rest =>
    match rest with
    | [] => none
    | c :: cs =>
      if c = '!' then none
      else
        match splitAtGtNoBar (c :: cs) with
        | none => none
        | some p => if p.1.isEmpty then none else some (p.1, p.2)

/-- `/<!(\w+)\|?(\w+)?>/g`: special command token, rewritten to `<label-or-command>`. -/
def commandBody : List Char → Option (List Char × List Char)
  | [] => none
  | _ :: rest =>
    match rest with
    | [] => none
    | c :: cs =>
      if c = '!' then
        let p := takeWhileWord cs
        if p.1.isEmpty then none
        else
          match p.2 with
          | [] => none
          | d :: ds =>
            if d = '>' then some ('<' :: p.1 ++ ['>'], ds)
            else if d = '|' then
              let q := takeWhileWord ds
              match q.2 with
              | [] => none
              | e :: es =>
                if e = '>' then
                  some ('<' :: (if q.1.isEmpty then p.1 else q.1) ++ ['>'], es)
                else none
            else none
      else none

/-- `/:(\w+):/g`: emoji shortcode, substituted through the emoji table when
mapped, left verbatim otherwise. -/
def emojiBody (emojiMap : String → Option String) : List Char → Option (List Char × List Char)
  | [] => none
  | _ :: rest =>
    let p := takeWhileWord rest
    if p.1.isEmpty then none
    else
      match p.2 with
      | [] => none
      | c :: cs =>
        if c = ':' then
          some ((match emojiMap ⟨p.1⟩ with
                 | some g => g.data
                 | none => ':' :: p.1 ++ [':']), cs)
        else none

/-- Lazy scan of `.+?` up to the first occurrence of `stop` (dot excludes the newline). -/
def scanToStop (stop : Char) : List Char → Option (List Char × List Char)
  | [] => none
  | c :: cs =>
    if c = stop then some ([], cs)
    else if c = '\n' then none
    else (scanToStop stop cs).map (fun p => (c :: p.1, p.2))

/-- `.+?` then `stop`: at least one dot character, then everything to the first `stop`. -/
def lazyTo (stop : Char) : List Char → Option (List Char × List Char)
  | [] => none
  | c :: cs =>
    if c = '\n' then none
    else (scanToStop stop cs).map (fun p => (c :: p.1, p.2))

/-- `/<.+?\|(.+?)>/g`: remaining labeled-link tokens unwrapped to their label. -/
def labeledLinkBody : List Char → Option (List Char × List Char)
  | [] => none
  | _ :: rest =>
    match lazyTo '|' rest with
    | none => none
    | some p =>
      match lazyTo '>' p.2 with
      | none => none
      | some q => some (q.1, q.2)

/-- One literal replacement stage of the pipeline. -/
def litStage (pat repl : String) (trig : Char → Bool) (s : String) : String :=
  runScan (guardHead trig (stepLit pat.data repl.data)) s

/-- `Bot.parseText`: the ordered regex pipeline.  The Slack data store lookups
and the emoji table (assets/emoji.json, data not under src/) are parameters. -/
def parseText (chanById userById : String → String) (emojiMap : String → Option String)
    (text : String) : String :=
  let t := runScan (guardHead nlTrig newlineBody) text
  let t := litStage "<!channel>" "@channel" ltTrig t
  let t := litStage "<!group>" "@group" ltTrig t
  let t := litStage "<!everyone>" "@everyone" ltTrig t
  let t := runScan (guardHead ltTrig (chanRefBody chanById)) t
  let t := runScan (guardHead ltTrig (userRefBody userById)) t
  let t := runScan (guardHead ltTrig linkBody) t
  let t := runScan (guardHead ltTrig commandBody) t
  let t := runScan (guardHead colonTrig (emojiBody emojiMap)) t
  let t := runScan (guardHead ltTrig labeledLinkBody) t
  let t := litStage "&lt;" "<" ampTrig t
  let t := litStage "&gt;" ">" ampTrig t
  litStage "&amp;" "&" ampTrig t

/-- `/\$username/g` replacement used for the username display formats. -/
def replaceVar (template value : String) : String :=
  runScan (guardHead (fun c => c == '$') (stepLit "$username".data value.data)) template

/-! ## Channel mapping (`Bot.constructor`, lines 52-59) -/

/-- The value normalization applied when the mapping is stored: drop everything
from the first space (a trailing channel password) and lowercase. -/
def normalizeValue (s : String) : String := toLowerStr (firstWord s)

/-- `this.channelMapping`: keys kept, values normalized. -/
def normalizeMapping (m : List (String × String)) : List (String × String) :=
  m.map (fun p => (p.1, normalizeValue p.2))

/-- `_.invert`: iterate the pairs in object order, assigning `result[value] = key`;
a later pair with the same value wins. -/
def invertMapping (m : List (String × String)) : List (String × String) :=
  m.foldl (fun acc p => objSet acc p.2 p.1) []

/-- `this.channelMapping[slackChan]` on the mapping built from the options. -/
def forwardLookup (opts : List (String × String)) (slackChan : String) : Option String :=
  objGet (normalizeMapping opts) slackChan

/-- `this.invertedMapping[ircChan]` on the mapping built from the options. -/
def inverseLookup (opts : List (String × String)) (ircChan : String) : Option String :=
  objGet (invertMapping (normalizeMapping opts)) ircChan

/-- A string starting with the channel prefix `#`. -/
def startsHash (s : String) : Bool :=
  match s.data with
  | c :: _ => c == '#'
  | [] => false

/-- Modelled from the spec: `validateChannelMapping` lives in src/lib/validators.js,
which is not under src/.  Spec section 4.1: construction fails with
`ConfigurationError` if the mapping is empty, contains duplicate destinations, or a
value is malformed (missing the required channel prefix).  The code calls it on the
raw `options.channelMapping`, before value normalization. -/
def validateChannelMapping (m : List (String × String)) : Bool :=
  !m.isEmpty && decide (m.map (fun p => p.2)).Nodup && m.all (fun p => startsHash p.2)

/-! ## Configuration (`Bot.constructor`) -/

/-- `options.avatarUrl`: absent, the literal `false`, or a string. -/
inductive AvatarOpt where
  | unset
  | disabled
  | url (s : String)
  deriving Repr, DecidableEq

/-- The constructor options object.  `Option` distinguishes an absent field. -/
structure Options where
  server : Option String := none
  nickname : Option String := none
  token : Option String := none
  channelMapping : Option (List (String × String)) := none
  ircStatusNoticesJoin : Bool := false
  ircStatusNoticesLeave : Bool := false
  commandCharacters : Option (List String) := none
  muteUsersIrc : Option (List String) := none
  muteUsersSlack : Option (List String) := none
  muteWords : Option (List String) := none
  muteSlackbot : Bool := false
  queueFor : Option Nat := none
  avatarUrl : AvatarOpt := .unset
  slackUsernameFormat : Option String := none
  ircUsernameFormat : Option String := none
  autoSendCommands : Option (List (List String)) := none

/-- JS truthiness of an optional string field (`undefined` and the empty string
are falsy). -/
def strTruthy : Option String → Bool
  | none => false
  | some s => !(s == "")

/-- `ConfigurationError` (src/lib/errors.js is not under src/; only the two ways
the constructor can throw it matter). -/
inductive ConfigErr where
  | missingField (f : String)
  | invalidMapping
  deriving Repr, DecidableEq

/-- The constructed bot state (connection clients and logging elided; the icon
url option is kept as data). -/
structure Bot where
  server : String := ""
  nickname : String := ""
  channels : List String := []
  muteSlackbot : Bool := false
  muteUsersSlack : List String := []
  muteUsersIrc : List String := []
  muteWords : List String := []
  queueFor : Nat := 30000
  ircStatusNoticesJoin : Bool := false
  ircStatusNoticesLeave : Bool := false
  commandCharacters : List String := []
  avatarUrl : Option String := none
  slackUsernameFormat : String := "$username (IRC)"
  ircUsernameFormat : String := "<$username> "
  channelMapping : List (String × String) := []
  invertedMapping : List (String × String) := []
  autoSendCommands : List (List String) := []
  deriving Repr

def defaultAvatarUrl : String := "http://api.adorable.io/avatars/48/$username.png"

/-- The field initialisations of the constructor body (after validation). -/
def mkBot (o : Options) (m : List (String × String)) : Bot :=
  { server := o.server.getD ""
    nickname := o.nickname.getD ""
    channels := m.map (fun p => p.2)
    muteSlackbot := o.muteSlackbot
    muteUsersSlack := o.muteUsersSlack.getD []
    muteUsersIrc := o.muteUsersIrc.getD []
    muteWords := o.muteWords.getD []
    queueFor := match o.queueFor with
      | some n => if n = 0 then 30000 else n
      | none => 30000
    ircStatusNoticesJoin := o.ircStatusNoticesJoin
    ircStatusNoticesLeave := o.ircStatusNoticesLeave
    commandCharacters := o.commandCharacters.getD []
    avatarUrl := match o.avatarUrl with
      | .disabled => none
      | .unset => some defaultAvatarUrl
      | .url s => if s = "" then some defaultAvatarUrl else some s
    slackUsernameFormat := match o.slackUsernameFormat with
      | some s => if s = "" then "$username (IRC)" else s
      | none => "$username (IRC)"
    ircUsernameFormat := o.ircUsernameFormat.getD "<$username> "
    channelMapping := normalizeMapping m
    invertedMapping := invertMapping (normalizeMapping m)
    autoSendCommands := o.autoSendCommands.getD [] }

/-- `Bot.constructor`: the required-field check (`REQUIRED_FIELDS`, in order),
then mapping validation, then the field initialisations.  Throwing is modelled
with `Except`; no connection is attempted here (`connect` is a separate method). -/
def botConstruct (o : Options) : Except ConfigErr Bot :=
  if strTruthy o.server = false then Except.error (ConfigErr.missingField "server")
  else if strTruthy o.nickname = false then Except.error (ConfigErr.missingField "nickname")
  else if o.channelMapping.isSome = false then
    Except.error (ConfigErr.missingField "channelMapping")
  else if strTruthy o.token = false then Except.error (ConfigErr.missingField "token")
  else
    let m := o.channelMapping.getD []
    if validateChannelMapping m = false then Except.error ConfigErr.invalidMapping
    else Except.ok (mkBot o m)

/-- Whether construction succeeds. -/
def constructionOk (o : Options) : Bool :=
  match botConstruct o with
  | .ok _ => true
  | .error _ => false

/-! ## The join-quiet queue (`Bot.joined` / `getOrCreateEntry` / `clearTimer` /
`setTimer` / `left` / `queue` / `fire`)

An entry object is referenced through its key in the owning map (a defined
return value of `getOrCreateEntry` is exactly the object stored at that key).
`setTimeout` handles live in `pendingTimers`; the code never assigns
`entry.timer`, so that field stays `none`.  JS runtime errors surface as
`Except.error`, and state mutated before the throw is kept. -/

inductive JsError where
  | typeError (msg : String)
  | refError (msg : String)
  deriving Repr, DecidableEq

structure Entry where
  hold : Bool
  messages : List String
  timer : Option Nat
  start : Option Nat
  deriving Repr, DecidableEq

structure QState where
  queueMessages : List (String × List (String × Entry))
  pendingTimers : List (Nat × Option (String × String))
  nextTimerId : Nat
  deriving Repr, DecidableEq

def qInit : QState := ⟨[], [], 0⟩

def lookupEntry (st : QState) (channel nick : String) : Option Entry :=
  (objGet st.queueMessages channel).bind (fun m => objGet m nick)

def updateEntry (st : QState) (channel nick : String) (f : Entry → Entry) : QState :=
  match objGet st.queueMessages channel with
  | none => st
  | some m =>
    match objGet m nick with
    | none => st
    | some e =>
      { st with queueMessages := objSet st.queueMessages channel (objSet m nick (f e)) }

def deleteEntry (st : QState) (channel nick : String) : QState :=
  match objGet st.queueMessages channel with
  | none => st
  | some m => { st with queueMessages := objSet st.queueMessages channel (objDelete m nick) }

/-- `Bot.getOrCreateEntry`: ensures the channel submap, creates a fresh entry
with the given hold flag when the nick has none, and returns the local `entry`
variable: the fresh entry when one was created, `undefined` (`none`) otherwise. -/
def getOrCreateEntry (st : QState) (channel nick : String) (hold : Bool) :
    QState × Option (String × String) :=
  let qm := st.queueMessages
  let qm1 := if (objGet qm channel).isSome then qm else objSet qm channel []
  let chMap := (objGet qm1 channel).getD []
  if (objGet chMap nick).isSome then
    ({ st with queueMessages := qm1 }, none)
  else
    let qm2 := objSet qm1 channel (objSet chMap nick ⟨hold, [], none, none⟩)
    ({ st with queueMessages := qm2 }, some (channel, nick))

/-- `Bot.clearTimer`: `clearTimeout(entry.timer)`.  Reading `.timer` of an
undefined entry throws; `clearTimeout(undefined)` is a no-op. -/
def clearTimer (st : QState) (entryRef : Option (String × String)) :
    QState × Except JsError Unit :=
  match entryRef with
  | none => (st, Except.error (JsError.typeError "reading timer of undefined"))
  | some k =>
    match (lookupEntry st k.1 k.2).bind Entry.timer with
    | none => (st, Except.ok ())
    | some h =>
      ({ st with pendingTimers := st.pendingTimers.filter (fun t => !(t.1 == h)) },
       Except.ok ())

/-- `Bot.setTimer`: re-fetch the entry (yielding `undefined` when it already
exists), clear, then `setTimeout(fire.bind(this, entry), queueFor)`; the
returned handle is discarded, never stored on the entry. -/
def setTimer (st : QState) (channel nick : String) : QState × Except JsError Unit :=
  match getOrCreateEntry st channel nick false with
  | (st1, eref) =>
    match clearTimer st1 eref with
    | (st2, Except.error e) => (st2, Except.error e)
    | (st2, Except.ok _) =>
      ({ st2 with pendingTimers := st2.pendingTimers ++ [(st2.nextTimerId, eref)],
                  nextTimerId := st2.nextTimerId + 1 },
       Except.ok ())

/-- `Bot.joined`: sets `entry.hold = true` and records the start time on the
value returned by `getOrCreateEntry` (a TypeError when the entry already existed). -/
def joined (st : QState) (now : Nat) (channel nick : String) : QState × Except JsError Unit :=
  match getOrCreateEntry st channel nick false with
  | (st1, none) => (st1, Except.error (JsError.typeError "setting hold of undefined"))
  | (st1, some _) =>
    (updateEntry st1 channel nick (fun en => { en with hold := true, start := some now }),
     Except.ok ())

/-- `Bot.left`: re-fetch the entry, `clearTimer` it (a TypeError when the entry
already existed), then delete the map slot. -/
def leftQ (st : QState) (channel nick : String) : QState × Except JsError Unit :=
  match getOrCreateEntry st channel nick false with
  | (st1, eref) =>
    match clearTimer st1 eref with
    | (st2, Except.error e) => (st2, Except.error e)
    | (st2, Except.ok _) => (deleteEntry st2 channel nick, Except.ok ())

/-- `Bot.queue`: `getOrCreateEntry(channel, nick, true)`, read `entry.hold`
(a TypeError when the entry already existed), and while held push the message
and reset the timer; returns whether the message was held. -/
def queue (st : QState) (channel nick message : String) : QState × Except JsError Bool :=
  match getOrCreateEntry st channel nick true with
  | (st1, none) => (st1, Except.error (JsError.typeError "reading hold of undefined"))
  | (st1, some _) =>
    let hold := ((lookupEntry st1 channel nick).getD ⟨false, [], none, none⟩).hold
    if hold then
      let st2 := updateEntry st1 channel nick
        (fun en => { en with messages := en.messages ++ [message] })
      match setTimer st2 channel nick with
      | (st3, Except.error e) => (st3, Except.error e)
      | (st3, Except.ok _) => (st3, Except.ok true)
    else (st1, Except.ok false)

/-- `Bot.fire`: clears the hold flag and the timer; when buffered messages
exist the log line references the identifiers `channel` and `nick`, which are
not in scope in the source, so a ReferenceError is raised before anything is
sent and the buffer is never cleared. -/
def fire (st : QState) (entryRef : Option (String × String)) : QState × Except JsError Unit :=
  match entryRef with
  | none => (st, Except.error (JsError.typeError "setting hold of undefined"))
  | some k =>
    let st1 := updateEntry st k.1 k.2 (fun en => { en with hold := false })
    match clearTimer st1 (some k) with
    | (st2, Except.error e) => (st2, Except.error e)
    | (st2, Except.ok _) =>
      if ((lookupEntry st2 k.1 k.2).getD ⟨false, [], none, none⟩).messages.isEmpty then
        (st2, Except.ok ())
      else (st2, Except.error (JsError.refError "channel is not defined"))

/-! ## The Slack side (external collaborator interfaces) -/

structure SlackChanInfo where
  name : String
  isChannel : Bool
  deriving Repr, DecidableEq

structure SlackDestChannel where
  id : String
  isMember : Bool
  isGroup : Bool
  members : List String
  deriving Repr, DecidableEq

structure SlackFile where
  permalink : String
  permalinkPublic : String
  initialComment : Option String
  deriving Repr, DecidableEq

instance : Inhabited SlackFile := ⟨⟨"", "", none⟩⟩

/-- The Slack message event fields the handler reads. -/
structure SlackMessage where
  type : String
  subtype : Option String
  channel : String
  user : String
  text : String
  file : Option SlackFile := none
  deriving Repr, DecidableEq

/-- The external data-store and helper surface.  `highlightUsername` is
modelled from the spec: src/lib/helpers.js is not under src/, so it is an
abstract parameter (spec section 4.5: highlight any substring of the text
matching a current member display name). -/
structure SlackEnv where
  getChannelGroupOrDMById : String → Option SlackChanInfo
  getUserName : String → String
  getChannelOrGroupByName : String → Option SlackDestChannel
  getChannelNameById : String → String
  getUserNameById : String → String
  highlightUsername : String → String → String

def envTriv : SlackEnv :=
  ⟨fun _ => none, fun _ => "", fun _ => none, fun _ => "", fun _ => "", fun _ t => t⟩

/-- A `chat.postMessage` call (icon url and parse mode elided). -/
structure SlackPost where
  channelId : String
  text : String
  username : String
  deriving Repr, DecidableEq

/-- `Bot.isCommandMessage`: `commandCharacters.indexOf(message[0]) !== -1`
(`undefined` on the empty string never matches). -/
def isCommandMessage (cfg : Bot) (text : String) : Bool :=
  match text.data with
  | [] => false
  | c :: _ => cfg.commandCharacters.contains (String.mk [c])

def ALLOWED_SUBTYPES : List String := ["me_message", "file_share"]

/-- JS truthiness of `message.subtype`. -/
def subtypeTruthy : Option String → Bool
  | none => false
  | some s => !(s == "")

/-- The guard of the Slack `message` handler (bot.js lines 106-112):
`message.type === 'message' && (!message.subtype || ALLOWED_SUBTYPES.indexOf(message.subtype) > -1)`. -/
def slackMessageRelayed (msg : SlackMessage) : Bool :=
  (msg.type == "message") &&
    (!(subtypeTruthy msg.subtype) ||
      (match msg.subtype with
       | some s => ALLOWED_SUBTYPES.contains s
       | none => false))

/-- `Bot.sendToIRC`: returns the list of `ircClient.say(channel, text)` calls. -/
def sendToIRC (cfg : Bot) (emojiMap : String → Option String) (env : SlackEnv)
    (msg : SlackMessage) : List (String × String) :=
  match env.getChannelGroupOrDMById msg.channel with
  | none => []
  | some channel =>
    if cfg.muteSlackbot && (msg.user == "USLACKBOT") then []
    else
      let userName := env.getUserName msg.user
      let username := replaceVar cfg.ircUsernameFormat userName
      if cfg.muteUsersSlack.contains userName then []
      else
        let channelName := if channel.isChannel then "#" ++ channel.name else channel.name
        match objGet cfg.channelMapping channelName with
        | none => []
        | some ircChannel =>
          let text := parseText env.getChannelNameById env.getUserNameById emojiMap msg.text
          if cfg.muteWords.any (fun w => containsSub (toLowerStr text) (toLowerStr w)) then []
          else if isCommandMessage cfg text then
            [(ircChannel, "Command sent from Slack by " ++ userName ++ ":"),
             (ircChannel, text)]
          else
            let text2 :=
              match msg.subtype with
              | none => username ++ text
              | some st =>
                if st = "" then username ++ text
                else if st = "file_share" then
                  let f := msg.file.getD default
                  username ++ "File uploaded " ++ f.permalink ++ " / " ++ f.permalinkPublic ++
                    (match f.initialComment with
                     | some com => " - " ++ com
                     | none => "")
                else if st = "me_message" then "Action: " ++ userName ++ " " ++ text
                else text
            [(ircChannel, text2)]

/-- `s.replace(/^#/, '')`. -/
def stripLeadingHash (s : String) : String :=
  match s.data with
  | '#' :: t => ⟨t⟩
  | _ => s

/-- `Bot.sendToSlack`: the inverted-mapping lookup, the mute-word loop, the
queue evaluation, then the membership, author-mute, highlight and post steps.
Returns the updated queue state, the posts made, and the JS outcome. -/
def sendToSlack (cfg : Bot) (env : SlackEnv) (st : QState) (author channel text : String) :
    QState × List SlackPost × Except JsError Unit :=
  let slackChannelName := objGet cfg.invertedMapping (toLowerStr channel)
  if cfg.muteWords.any (fun w => containsSub (toLowerStr text) (toLowerStr w)) then
    (st, [], Except.ok ())
  else
    match queue st channel author text with
    | (st1, Except.error e) => (st1, [], Except.error e)
    | (st1, Except.ok true) => (st1, [], Except.ok ())
    | (st1, Except.ok false) =>
      match slackChannelName with
      | none => (st1, [], Except.ok ())
      | some scn =>
        let name := stripLeadingHash scn
        match env.getChannelOrGroupByName name with
        | none => (st1, [], Except.ok ())
        | some sc =>
          if !sc.isMember && !sc.isGroup then (st1, [], Except.ok ())
          else if cfg.muteUsersIrc.contains author then (st1, [], Except.ok ())
          else
            let mapped := (sc.members.map env.getUserName).foldl
              (fun cur u => env.highlightUsername u cur) text
            (st1,
             [{ channelId := sc.id, text := mapped,
                username := replaceVar cfg.slackUsernameFormat author }],
             Except.ok ())

/-! ## IRC event handlers (`Bot.attachListeners`) -/

/-- The `join` handler: everything is skipped when the joining nick is the
bridge itself. -/
def onIrcJoin (cfg : Bot) (env : SlackEnv) (st : QState) (now : Nat)
    (channel nick : String) : QState × List SlackPost × Except JsError Unit :=
  if nick ≠ cfg.nickname then
    match joined st now channel nick with
    | (st1, Except.error e) => (st1, [], Except.error e)
    | (st1, Except.ok _) =>
      if cfg.ircStatusNoticesJoin then
        sendToSlack cfg env st1 cfg.nickname channel
          ("*" ++ nick ++ "* has joined the IRC channel")
      else (st1, [], Except.ok ())
  else (st, [], Except.ok ())

/-- The `part` handler: `left` runs unconditionally (own nick included), then
the optional leave notice. -/
def onIrcPart (cfg : Bot) (env : SlackEnv) (st : QState)
    (channel nick : String) : QState × List SlackPost × Except JsError Unit :=
  match leftQ st channel nick with
  | (st1, Except.error e) => (st1, [], Except.error e)
  | (st1, Except.ok _) =>
    if cfg.ircStatusNoticesLeave then
      sendToSlack cfg env st1 cfg.nickname channel
        ("*" ++ nick ++ "* has left the IRC channel")
    else (st1, [], Except.ok ())

/-- The `quit` handler: the source calls `this.left(channel, nick)` but no
`channel` identifier is in scope there, so every quit raises a ReferenceError
before anything else happens. -/
def onIrcQuit (st : QState) (_nick : String) (_channels : List String) :
    QState × List SlackPost × Except JsError Unit :=
  (st, [], Except.error (JsError.refError "channel is not defined"))

/-- The Slack `message` handler: relays through `sendToIRC` only when the guard
accepts the event. -/
def onSlackMessage (cfg : Bot) (emojiMap : String → Option String) (env : SlackEnv)
    (msg : SlackMessage) : List (String × String) :=
  if slackMessageRelayed msg then sendToIRC cfg emojiMap env msg else []

/-! ## Association list lemmas -/

theorem objGet_objSet_self {α : Type} (l : List (String × α)) (k : String) (v : α) :
    objGet (objSet l k v) k = some v := by
  induction l with
  | nil => simp [objSet, objGet]
  | cons p t ih =>
    by_cases h : p.1 = k
    · simp [objSet, h, objGet]
    · simp [objSet, h, objGet, ih]

theorem objGet_objSet_ne {α : Type} (l : List (String × α)) (k q : String) (v : α)
    (h : q ≠ k) : objGet (objSet l k v) q = objGet l q := by
  induction l with
  | nil => simp [objSet, objGet, Ne.symm h]
  | cons p t ih =>
    by_cases hp : p.1 = k
    · simp [objSet, hp, objGet, Ne.symm h, ih]
    · simp [objSet, hp, objGet, ih]

theorem objGet_of_mem {α : Type} (l : List (String × α)) (hk : (l.map Prod.fst).Nodup)
    (k : String) (v : α) (h : (k, v) ∈ l) : objGet l k = some v := by
  induction l with
  | nil => cases h
  | cons p t ih =>
    rw [List.map_cons, List.nodup_cons] at hk
    rcases List.mem_cons.mp h with he | ht
    · rw [← he]; simp [objGet]
    · have hne : p.1 ≠ k := by
        intro hh
        exact hk.1 (hh ▸ List.mem_map_of_mem Prod.fst ht)
      simp [objGet, hne, ih hk.2 ht]

theorem objGet_foldl_notmem (l : List (String × String)) (acc : List (String × String))
    (v : String) (h : v ∉ l.map Prod.snd) :
    objGet (l.foldl (fun a p => objSet a p.2 p.1) acc) v = objGet acc v := by
  induction l generalizing acc with
  | nil => rfl
  | cons p t ih =>
    rw [List.map_cons] at h
    rw [List.foldl_cons, ih (objSet acc p.2 p.1) (fun hm => h (List.mem_cons_of_mem _ hm))]
    exact objGet_objSet_ne acc p.2 v p.1 (fun he => h (he ▸ List.mem_cons_self _ _))

theorem objGet_foldl_mem (l : List (String × String)) (acc : List (String × String))
    (hv : (l.map Prod.snd).Nodup) (k v : String) (h : (k, v) ∈ l) :
    objGet (l.foldl (fun a p => objSet a p.2 p.1) acc) v = some k := by
  induction l generalizing acc with
  | nil => cases h
  | cons p t ih =>
    rw [List.map_cons, List.nodup_cons] at hv
    rw [List.foldl_cons]
    rcases List.mem_cons.mp h with he | ht
    · rw [← he] at hv ⊢
      rw [objGet_foldl_notmem t _ v hv.1]
      exact objGet_objSet_self acc v k
    · exact ih _ hv.2 ht

/-! ## Queue lemmas -/

theorem getOrCreateEntry_existing (st : QState) (ch nick : String) (hold : Bool) (e : Entry)
    (h : lookupEntry st ch nick = some e) :
    getOrCreateEntry st ch nick hold = (st, none) := by
  unfold lookupEntry at h
  unfold getOrCreateEntry
  cases hq : objGet st.queueMessages ch with
  | none => rw [hq] at h; simp at h
  | some m =>
    rw [hq] at h
    simp only [Option.some_bind] at h
    simp [hq, h]

theorem getOrCreateEntry_fresh (st : QState) (ch nick : String) (hold : Bool)
    (h : lookupEntry st ch nick = none) :
    (getOrCreateEntry st ch nick hold).2 = some (ch, nick) ∧
    lookupEntry (getOrCreateEntry st ch nick hold).1 ch nick = some ⟨hold, [], none, none⟩ ∧
    (getOrCreateEntry st ch nick hold).1.pendingTimers = st.pendingTimers ∧
    (getOrCreateEntry st ch nick hold).1.nextTimerId = st.nextTimerId := by
  unfold lookupEntry at h
  unfold getOrCreateEntry
  cases hq : objGet st.queueMessages ch with
  | none =>
    simp only [hq, Option.isSome_none, Bool.false_eq_true, if_false,
      objGet_objSet_self, Option.getD_some]
    simp [lookupEntry, objGet_objSet_self, objGet]
  | some m =>
    rw [hq] at h
    simp only [Option.some_bind] at h
    simp only [hq, Option.isSome_some, if_true, Option.getD_some, h,
      Option.isSome_none, Bool.false_eq_true, if_false]
    simp [lookupEntry, objGet_objSet_self]

theorem updateEntry_spec (st : QState) (ch nick : String) (f : Entry → Entry) (e : Entry)
    (h : lookupEntry st ch nick = some e) :
    lookupEntry (updateEntry st ch nick f) ch nick = some (f e) ∧
    (updateEntry st ch nick f).pendingTimers = st.pendingTimers ∧
    (updateEntry st ch nick f).nextTimerId = st.nextTimerId := by
  unfold lookupEntry at h
  unfold updateEntry
  cases hq : objGet st.queueMessages ch with
  | none => rw [hq] at h; simp at h
  | some m =>
    rw [hq] at h
    simp only [Option.some_bind] at h
    simp [h, lookupEntry, objGet_objSet_self]

theorem setTimer_existing (st : QState) (ch nick : String) (e : Entry)
    (h : lookupEntry st ch nick = some e) :
    setTimer st ch nick = (st, Except.error (JsError.typeError "reading timer of undefined")) := by
  unfold setTimer
  rw [getOrCreateEntry_existing st ch nick false e h]
  rfl

theorem queue_fresh (st : QState) (ch nick msg : String)
    (h : lookupEntry st ch nick = none) :
    lookupEntry (queue st ch nick msg).1 ch nick = some ⟨true, [msg], none, none⟩ ∧
    (queue st ch nick msg).2 = Except.error (JsError.typeError "reading timer of undefined") ∧
    (queue st ch nick msg).1.pendingTimers = st.pendingTimers := by
  obtain ⟨h2, hlook, hpt, _⟩ := getOrCreateEntry_fresh st ch nick true h
  have hpair : getOrCreateEntry st ch nick true =
      ((getOrCreateEntry st ch nick true).1, (getOrCreateEntry st ch nick true).2) := rfl
  rw [h2] at hpair
  unfold queue
  rw [hpair]
  simp only [hlook, Option.getD_some]
  obtain ⟨hulook, hupt, _⟩ := updateEntry_spec (getOrCreateEntry st ch nick true).1 ch nick
    (fun en => { en with messages := en.messages ++ [msg] }) _ hlook
  simp only [List.nil_append] at hulook
  rw [setTimer_existing _ ch nick _ hulook]
  simp [hulook, hupt, hpt]

/-! ## Scanner lemmas (for the emoji stage of `parseText`) -/

theorem strData_append (a b : String) : (a ++ b).data = a.data ++ b.data := by
  cases a; cases b; rfl

theorem scanGo_no_trigger (trig : Char → Bool)
    (body : List Char → Option (List Char × List Char)) (s : List Char)
    (hs : ∀ c ∈ s, trig c = false) (fuel : Nat) :
    scanGo (guardHead trig body) fuel s = s := by
  induction s generalizing fuel with
  | nil => cases fuel <;> rfl
  | cons c cs ih =>
    cases fuel with
    | zero => rfl
    | succ f =>
      have hc : trig c = false := hs c (List.mem_cons_self c cs)
      simp only [scanGo, guardHead, hc, Bool.false_eq_true, if_false]
      exact congrArg (c :: ·) (ih (fun d hd => hs d (List.mem_cons_of_mem c hd)) f)

theorem runScan_no_trigger (trig : Char → Bool)
    (body : List Char → Option (List Char × List Char)) (s : String)
    (hs : ∀ c ∈ s.data, trig c = false) :
    runScan (guardHead trig body) s = s := by
  unfold runScan
  rw [scanGo_no_trigger trig body s.data hs s.data.length]

theorem litStage_id (pat repl : String) (trig : Char → Bool) (s : String)
    (hs : ∀ c ∈ s.data, trig c = false) : litStage pat repl trig s = s :=
  runScan_no_trigger trig (stepLit pat.data repl.data) s hs

theorem scanGo_skip (trig : Char → Bool)
    (body : List Char → Option (List Char × List Char)) (pre : List Char)
    (hpre : ∀ c ∈ pre, trig c = false) (s : List Char) (fuel : Nat) :
    scanGo (guardHead trig body) (pre.length + fuel) (pre ++ s) =
      pre ++ scanGo (guardHead trig body) fuel s := by
  induction pre with
  | nil => simp
  | cons c t ih =>
    have hc : trig c = false := hpre c (List.mem_cons_self c t)
    have harith : (c :: t).length + fuel = (t.length + fuel) + 1 := by
      simp [List.length_cons]; omega
    rw [harith, List.cons_append]
    simp only [scanGo, guardHead, hc, Bool.false_eq_true, if_false]
    exact congrArg (c :: ·) (ih (fun d hd => hpre d (List.mem_cons_of_mem c hd)))

theorem takeWhileWord_append_colon (w : List Char)
    (hw : ∀ c ∈ w, isWordChar c = true) (rest : List Char) :
    takeWhileWord (w ++ ':' :: rest) = (w, ':' :: rest) := by
  induction w with
  | nil =>
    have h : isWordChar ':' = false := by decide
    simp [takeWhileWord, h]
  | cons c t ih =>
    have hc : isWordChar c = true := hw c (List.mem_cons_self c t)
    simp [takeWhileWord, hc, ih (fun d hd => hw d (List.mem_cons_of_mem c hd))]

theorem scanGo_emoji_match (m : String → Option String) (name rest : List Char)
    (hne : name ≠ []) (hw : ∀ c ∈ name, isWordChar c = true)
    (hrest : ∀ c ∈ rest, colonTrig c = false) (fuel : Nat) :
    scanGo (guardHead colonTrig (emojiBody m)) (fuel + 1) (':' :: (name ++ ':' :: rest)) =
      (match m ⟨name⟩ with
       | some g => g.data
       | none => ':' :: name ++ [':']) ++ rest := by
  have hempty : name.isEmpty = false := by
    cases name with
    | nil => exact absurd rfl hne
    | cons a b => rfl
  have hstep : guardHead colonTrig (emojiBody m) (':' :: (name ++ ':' :: rest)) =
      some ((match m ⟨name⟩ with
             | some g => g.data
             | none => ':' :: name ++ [':']), rest) := by
    have hcolon : colonTrig ':' = true := by decide
    simp only [guardHead, hcolon, if_true, emojiBody,
      takeWhileWord_append_colon name hw rest, hempty, Bool.false_eq_true, if_false,
      if_pos rfl]
  simp only [scanGo, hstep]
  rw [scanGo_no_trigger colonTrig (emojiBody m) rest hrest fuel]

theorem emojiStage_eval (m : String → Option String) (name : String)
    (hne : name.data ≠ []) (hw : ∀ c ∈ name.data, isWordChar c = true) :
    runScan (guardHead colonTrig (emojiBody m)) ("hi :" ++ name ++ ": there") =
      "hi " ++ ((m name).getD (":" ++ name ++ ":")) ++ " there" := by
  have hdata : ("hi :" ++ name ++ ": there").data =
      "hi ".data ++ (':' :: (name.data ++ ':' :: " there".data)) := by
    rw [strData_append, strData_append]
    rfl
  have hpre : ∀ c ∈ "hi ".data, colonTrig c = false := by decide
  have hrest : ∀ c ∈ " there".data, colonTrig c = false := by decide
  unfold runScan
  rw [hdata, List.length_append]
  rw [scanGo_skip colonTrig (emojiBody m) "hi ".data hpre _ _]
  rw [show (':' :: (name.data ++ ':' :: " there".data)).length =
        (name.data ++ ':' :: " there".data).length + 1 from rfl]
  rw [scanGo_emoji_match m name.data " there".data hne hw hrest _]
  have heta : (⟨name.data⟩ : String) = name := rfl
  rw [heta]
  have hmk : ∀ (l : List Char) (r : String), l = r.data → String.mk l = r := by
    intro l r hl
    cases r
    cases hl
    rfl
  apply hmk
  rw [strData_append, strData_append]
  cases hm : m name with
  | some g => simp [hm, List.append_assoc]
  | none =>
    simp only [hm, Option.getD_none]
    rw [show (":" ++ name ++ ":").data = ':' :: name.data ++ [':'] by
        rw [strData_append, strData_append]; rfl]
    simp [List.append_assoc]

theorem wordChar_ne (c d : Char) (h : isWordChar c = true) (hd : isWordChar d = false) :
    (c == d) = false := by
  cases hb : c == d
  · rfl
  · have he : c = d := eq_of_beq hb
    rw [he, hd] at h
    cases h

/-! ## Concrete states and configurations used by the claim instances -/

/-- The state right after a first `join("c", "bob")` from the empty state. -/
def stJ : QState := (joined qInit 5 "c" "bob").1

/-- A state holding one buffered message for ("c", "bob"). -/
def stHeld : QState := ⟨[("c", [("bob", ⟨true, ["hello"], none, none⟩)])], [], 0⟩

def cfgBridge : Bot :=
  { nickname := "bridge", invertedMapping := [("#c", "general")],
    ircStatusNoticesLeave := true, ircStatusNoticesJoin := true }

def cfgMute : Bot := { nickname := "bridge", muteUsersIrc := ["eve"] }

def cfgMuteW : Bot := { nickname := "bridge", muteWords := ["bad"] }

def msgBad : SlackMessage :=
  { type := "message", subtype := none, channel := "C1", user := "U1", text := "so BAD" }

def msgJoinW : SlackMessage :=
  { type := "message", subtype := some "channel_join", channel := "C1", user := "U1",
    text := "x" }

def optsOk : Options :=
  { server := some "irc.freenode.net", nickname := some "bridge",
    token := some "tok", channelMapping := some [("general", "#chan")] }

def cfgC6 : List (String × String) := [("a", "#C"), ("b", "#c")]

def optsC6 : Options :=
  { server := some "s", nickname := some "n", token := some "t",
    channelMapping := some cfgC6 }

/-! ## Claims -/

/-- C1, counterexample: from the empty state ("alice" has no QueueEntry in
"#chan"), `queue` buffers the message into a freshly created held entry and
raises a TypeError instead of reporting it as not held; the message does not
pass straight through. -/
theorem c1_counterexample :
    lookupEntry (queue qInit "#chan" "alice" "hello").1 "#chan" "alice" =
      some ⟨true, ["hello"], none, none⟩ ∧
    (queue qInit "#chan" "alice" "hello").2 =
      Except.error (JsError.typeError "reading timer of undefined") := ⟨rfl, rfl⟩

/-- C1 (amended): for every inbound IRC message from a nickname with no
QueueEntry for that channel, the queue evaluation creates an entry with
`hold = true` and appends the message to its buffer, then raises a TypeError
while resetting the timer; the message never reaches the send path. -/
theorem c1_amended (st : QState) (channel nick message : String)
    (h : lookupEntry st channel nick = none) :
    lookupEntry (queue st channel nick message).1 channel nick =
      some ⟨true, [message], none, none⟩ ∧
    (queue st channel nick message).2 =
      Except.error (JsError.typeError "reading timer of undefined") :=
  ⟨(queue_fresh st channel nick message h).1, (queue_fresh st channel nick message h).2.1⟩

theorem c1_amended_witness :
    lookupEntry (queue qInit "c" "bob" "hi").1 "c" "bob" = some ⟨true, ["hi"], none, none⟩ ∧
    (queue qInit "c" "bob" "hi").2 =
      Except.error (JsError.typeError "reading timer of undefined") :=
  c1_amended qInit "c" "bob" "hi" rfl

/-- C2 helper: a message whose text contains a blocked substring
(case-insensitive) is dropped by `sendToSlack` before the queue: state
unchanged, nothing posted. -/
theorem sendToSlack_muteword (cfg : Bot) (env : SlackEnv) (st : QState)
    (author channel text : String)
    (h : cfg.muteWords.any (fun w => containsSub (toLowerStr text) (toLowerStr w)) = true) :
    sendToSlack cfg env st author channel text = (st, [], Except.ok ()) := by
  unfold sendToSlack
  simp [h]

/-- C2 helper: a Slack message whose transformed text contains a blocked
substring is never said to IRC. -/
theorem sendToIRC_muteword (cfg : Bot) (emojiMap : String → Option String) (env : SlackEnv)
    (msg : SlackMessage)
    (h : cfg.muteWords.any (fun w =>
        containsSub
          (toLowerStr (parseText env.getChannelNameById env.getUserNameById emojiMap msg.text))
          (toLowerStr w)) = true) :
    sendToIRC cfg emojiMap env msg = [] := by
  unfold sendToIRC
  cases env.getChannelGroupOrDMById msg.channel with
  | none => rfl
  | some channel =>
    simp only []
    split
    · rfl
    · split
      · rfl
      · cases objGet cfg.channelMapping
          (if channel.isChannel then "#" ++ channel.name else channel.name) with
        | none => rfl
        | some irc => simp [h]

/-- C2 helper: the blocked-author check of `sendToSlack` runs only after the
queue evaluation, so a message from a blocked author arriving for a nickname
with no entry is appended to the queue. -/
theorem sendToSlack_author_after_queue (cfg : Bot) (env : SlackEnv) (st : QState)
    (author channel text : String)
    (hw : cfg.muteWords.any (fun w => containsSub (toLowerStr text) (toLowerStr w)) = false)
    (hfresh : lookupEntry st channel author = none) :
    lookupEntry (sendToSlack cfg env st author channel text).1 channel author =
      some ⟨true, [text], none, none⟩ := by
  obtain ⟨hl, he, _⟩ := queue_fresh st channel author text hfresh
  have hpair : queue st channel author text =
      ((queue st channel author text).1, (queue st channel author text).2) := rfl
  rw [he] at hpair
  unfold sendToSlack
  rw [hpair]
  simp [hw, hl]

/-- C2 (amended): the blocked-substring check precedes the queue and drops the
message in both directions without it entering any JoinQuietQueue entry; the
blocked-author check of the IRC-to-Slack direction, however, runs only after
the queue evaluation, so a blocked author message for a nickname with no entry
is appended to a queue entry. -/
theorem c2_amended :
    (∀ (cfg : Bot) (env : SlackEnv) (st : QState) (author channel text : String),
      cfg.muteWords.any (fun w => containsSub (toLowerStr text) (toLowerStr w)) = true →
      sendToSlack cfg env st author channel text = (st, [], Except.ok ())) ∧
    (∀ (cfg : Bot) (emojiMap : String → Option String) (env : SlackEnv) (msg : SlackMessage),
      cfg.muteWords.any (fun w =>
        containsSub
          (toLowerStr (parseText env.getChannelNameById env.getUserNameById emojiMap msg.text))
          (toLowerStr w)) = true →
      sendToIRC cfg emojiMap env msg = []) ∧
    (∀ (cfg : Bot) (env : SlackEnv) (st : QState) (author channel text : String),
      cfg.muteUsersIrc.contains author = true →
      cfg.muteWords.any (fun w => containsSub (toLowerStr text) (toLowerStr w)) = false →
      lookupEntry st channel author = none →
      lookupEntry (sendToSlack cfg env st author channel text).1 channel author =
        some ⟨true, [text], none, none⟩) :=
  ⟨sendToSlack_muteword, sendToIRC_muteword,
   fun cfg env st author channel text _ hw hfresh =>
     sendToSlack_author_after_queue cfg env st author channel text hw hfresh⟩

theorem c2_amended_witness :
    sendToSlack cfgMuteW envTriv qInit "alice" "#c" "so bad" = (qInit, [], Except.ok ()) ∧
    sendToIRC cfgMuteW (fun _ => none) envTriv msgBad = [] ∧
    lookupEntry (sendToSlack cfgMute envTriv qInit "eve" "#c" "ok").1 "#c" "eve" =
      some ⟨true, ["ok"], none, none⟩ :=
  ⟨c2_amended.1 cfgMuteW envTriv qInit "alice" "#c" "so bad" rfl,
   c2_amended.2.1 cfgMuteW (fun _ => none) envTriv msgBad rfl,
   c2_amended.2.2 cfgMute envTriv qInit "eve" "#c" "ok" rfl rfl rfl⟩

/-- C2, counterexample: with "eve" in the blocked IRC authors and no blocked
substrings, the message from "eve" is appended to a JoinQuietQueue entry by
`sendToSlack`, because the author-mute check runs only after the queue
evaluation; the claim says a muted message never enters the queue. -/
theorem c2_counterexample :
    cfgMute.muteUsersIrc.contains "eve" = true ∧
    cfgMute.muteWords = [] ∧
    lookupEntry (sendToSlack cfgMute envTriv qInit "eve" "#c" "hi").1 "#c" "eve" =
      some ⟨true, ["hi"], none, none⟩ := ⟨rfl, rfl, rfl⟩

/-- C3: the code never cancels a previous countdown timer.  Re-entering
`queue` while an entry exists raises a TypeError (reading `hold` of the
undefined return of `getOrCreateEntry`), `setTimer` on an existing entry
raises a TypeError inside `clearTimer`, and the one reachable successful
`setTimer` (fresh entry) registers a pending timeout without ever storing the
handle on the entry (`timer` stays `none`), so nothing is cancellable. -/
theorem c3_timer_bug :
    (queue stJ "c" "bob" "m1").2 =
      Except.error (JsError.typeError "reading hold of undefined") ∧
    (setTimer stJ "c" "bob").2 =
      Except.error (JsError.typeError "reading timer of undefined") ∧
    (setTimer qInit "c" "x").1.pendingTimers = [(0, some ("c", "x"))] ∧
    lookupEntry (setTimer qInit "c" "x").1 "c" "x" = some ⟨false, [], none, none⟩ :=
  ⟨rfl, rfl, rfl, rfl⟩

/-- C4: when `fire` runs on an entry holding a buffered message, the hold flag
is cleared but the out-of-scope identifiers `channel`/`nick` raise a
ReferenceError before anything is sent, and the buffer is never emptied. -/
theorem c4_fire_bug :
    (fire stHeld (some ("c", "bob"))).2 =
      Except.error (JsError.refError "channel is not defined") ∧
    lookupEntry (fire stHeld (some ("c", "bob"))).1 "c" "bob" =
      some ⟨false, ["hello"], none, none⟩ := ⟨rfl, rfl⟩

/-- C5: a part for a channel/nick that has an entry raises a TypeError inside
`clearTimer` (the `getOrCreateEntry` re-fetch returns undefined), so the entry
is not removed and its buffered messages are not discarded; and every quit
raises a ReferenceError because `channel` is unbound in the quit handler. -/
theorem c5_left_bug :
    (leftQ stHeld "c" "bob").2 =
      Except.error (JsError.typeError "reading timer of undefined") ∧
    lookupEntry (leftQ stHeld "c" "bob").1 "c" "bob" =
      some ⟨true, ["hello"], none, none⟩ ∧
    onIrcQuit stHeld "bob" ["c"] =
      (stHeld, [], Except.error (JsError.refError "channel is not defined")) :=
  ⟨rfl, rfl, rfl⟩

/-- C6, counterexample: the construction-accepted mapping
`[("a", "#C"), ("b", "#c")]` (raw values distinct) collapses after
normalization, and the inverse of forward("a") is "b", not "a". -/
theorem c6_counterexample :
    constructionOk optsC6 = true ∧
    ("a", "#C") ∈ cfgC6 ∧
    forwardLookup cfgC6 "a" = some "#c" ∧
    inverseLookup cfgC6 "#c" = some "b" := by
  refine ⟨rfl, ?_, rfl, rfl⟩
  decide

/-- C6 (amended): for every mapping whose keys are distinct and whose
normalized values (lowercased, truncated at the first space) are distinct, the
forward and inverse channel lookups are mutual inverses on every mapped pair. -/
theorem c6_amended (opts : List (String × String))
    (hk : (opts.map Prod.fst).Nodup)
    (hv : ((normalizeMapping opts).map Prod.snd).Nodup)
    (k v : String) (hmem : (k, v) ∈ opts) :
    forwardLookup opts k = some (normalizeValue v) ∧
    inverseLookup opts (normalizeValue v) = some k := by
  have hm : (k, normalizeValue v) ∈ normalizeMapping opts :=
    List.mem_map_of_mem (fun p => (p.1, normalizeValue p.2)) hmem
  have hkeys : ((normalizeMapping opts).map Prod.fst) = opts.map Prod.fst := by
    unfold normalizeMapping
    rw [List.map_map]
    congr 1
  constructor
  · exact objGet_of_mem _ (hkeys ▸ hk) _ _ hm
  · exact objGet_foldl_mem _ [] hv _ _ hm

theorem c6_amended_witness :
    forwardLookup [("general", "#Chan key")] "general" = some "#chan" ∧
    inverseLookup [("general", "#Chan key")] "#chan" = some "general" := by
  have h := c6_amended [("general", "#Chan key")] (by decide) (by decide)
    "general" "#Chan key" (by decide)
  have e : normalizeValue "#Chan key" = "#chan" := by decide
  exact ⟨e ▸ h.1, e ▸ h.2⟩

/-- The emoji table of the claim: `{smile: 😄}` (assets/emoji.json is data not
under src/; the table is a parameter of the embedding). -/
def emojiMapW : String → Option String :=
  fun s => if s == "smile" then some "😄" else none

/-- C7: for an emoji shortcode token `:name:` in the input, the text
transformation substitutes the mapped glyph when the emoji table maps `name`,
and leaves the token verbatim otherwise (glyphs are assumed free of the `<` and
`&` trigger characters of the two stages that run after emoji substitution). -/
theorem c7_emoji_transform (chanById userById : String → String)
    (m : String → Option String) (name : String)
    (hne : name.data ≠ [])
    (hw : ∀ c ∈ name.data, isWordChar c = true)
    (hg : ∀ g, m name = some g → ∀ c ∈ g.data, ltTrig c = false ∧ ampTrig c = false) :
    parseText chanById userById m ("hi :" ++ name ++ ": there") =
      "hi " ++ ((m name).getD (":" ++ name ++ ":")) ++ " there" := by
  have hword_nl : ∀ c, isWordChar c = true → nlTrig c = false := by
    intro c hc
    have h1 := wordChar_ne c '\n' hc (by decide)
    have h2 := wordChar_ne c '\r' hc (by decide)
    simp [nlTrig, h1, h2]
  have hword_lt : ∀ c, isWordChar c = true → ltTrig c = false := by
    intro c hc
    simp [ltTrig, wordChar_ne c '<' hc (by decide)]
  have hword_amp : ∀ c, isWordChar c = true → ampTrig c = false := by
    intro c hc
    simp [ampTrig, wordChar_ne c '&' hc (by decide)]
  have hdata : ("hi :" ++ name ++ ": there").data =
      "hi :".data ++ name.data ++ ": there".data := by
    rw [strData_append, strData_append]
  have hin : ∀ (trig : Char → Bool), (∀ c, isWordChar c = true → trig c = false) →
      (∀ c ∈ "hi :".data, trig c = false) → (∀ c ∈ ": there".data, trig c = false) →
      ∀ c ∈ ("hi :" ++ name ++ ": there").data, trig c = false := by
    intro trig hword hc1 hc2 c hc
    rw [hdata] at hc
    rcases List.mem_append.mp hc with hc | hc
    · rcases List.mem_append.mp hc with hc | hc
      · exact hc1 c hc
      · exact hword c (hw c hc)
    · exact hc2 c hc
  have hin_nl := hin nlTrig hword_nl (by decide) (by decide)
  have hin_lt := hin ltTrig hword_lt (by decide) (by decide)
  have hrepl : ∀ c ∈ ((m name).getD (":" ++ name ++ ":")).data,
      ltTrig c = false ∧ ampTrig c = false := by
    cases hm : m name with
    | some g =>
      intro c hc
      simp only [hm, Option.getD_some] at hc
      exact hg g hm c hc
    | none =>
      intro c hc
      simp only [hm, Option.getD_none] at hc
      rw [show (":" ++ name ++ ":").data = ':' :: name.data ++ [':'] by
          rw [strData_append, strData_append]; rfl] at hc
      rcases List.mem_cons.mp hc with hc | hc
      · rw [hc]; constructor <;> decide
      · rcases List.mem_append.mp hc with hc | hc
        · exact ⟨hword_lt c (hw c hc), hword_amp c (hw c hc)⟩
        · rcases List.mem_singleton.mp hc with rfl
          constructor <;> decide
  have hout : ∀ (trig : Char → Bool),
      (∀ c ∈ ((m name).getD (":" ++ name ++ ":")).data, trig c = false) →
      (∀ c ∈ "hi ".data, trig c = false) → (∀ c ∈ " there".data, trig c = false) →
      ∀ c ∈ ("hi " ++ (m name).getD (":" ++ name ++ ":") ++ " there").data,
        trig c = false := by
    intro trig hmid hc1 hc2 c hc
    rw [strData_append, strData_append] at hc
    rcases List.mem_append.mp hc with hc | hc
    · rcases List.mem_append.mp hc with hc | hc
      · exact hc1 c hc
      · exact hmid c hc
    · exact hc2 c hc
  have hout_lt := hout ltTrig (fun c hc => (hrepl c hc).1) (by decide) (by decide)
  have hout_amp := hout ampTrig (fun c hc => (hrepl c hc).2) (by decide) (by decide)
  simp only [parseText]
  rw [runScan_no_trigger nlTrig newlineBody _ hin_nl]
  rw [litStage_id "<!channel>" "@channel" ltTrig _ hin_lt]
  rw [litStage_id "<!group>" "@group" ltTrig _ hin_lt]
  rw [litStage_id "<!everyone>" "@everyone" ltTrig _ hin_lt]
  rw [runScan_no_trigger ltTrig (chanRefBody chanById) _ hin_lt]
  rw [runScan_no_trigger ltTrig (userRefBody userById) _ hin_lt]
  rw [runScan_no_trigger ltTrig linkBody _ hin_lt]
  rw [runScan_no_trigger ltTrig commandBody _ hin_lt]
  rw [emojiStage_eval m name hne hw]
  rw [runScan_no_trigger ltTrig labeledLinkBody _ hout_lt]
  rw [litStage_id "&lt;" "<" ampTrig _ hout_amp]
  rw [litStage_id "&gt;" ">" ampTrig _ hout_amp]
  rw [litStage_id "&amp;" "&" ampTrig _ hout_amp]

theorem c7_emoji_transform_witness :
    parseText (fun _ => "") (fun _ => "") emojiMapW "hi :smile: there" = "hi 😄 there" ∧
    parseText (fun _ => "") (fun _ => "") emojiMapW "hi :bogus: there" =
      "hi :bogus: there" := by
  constructor
  · have h := c7_emoji_transform (fun _ => "") (fun _ => "") emojiMapW "smile"
      (by decide) (by decide)
      (by
        intro g hgg c hc
        simp only [emojiMapW, if_pos rfl] at hgg
        rw [← Option.some_inj.mp hgg] at hc
        revert hc
        revert c
        decide)
    have e1 : "hi :" ++ "smile" ++ ": there" = "hi :smile: there" := by decide
    have e2 : "hi " ++ ((emojiMapW "smile").getD (":" ++ "smile" ++ ":")) ++ " there" =
        "hi 😄 there" := by decide
    rw [e1, e2] at h
    exact h
  · have h := c7_emoji_transform (fun _ => "") (fun _ => "") emojiMapW "bogus"
      (by decide) (by decide)
      (by intro g hgg; simp [emojiMapW] at hgg)
    have e1 : "hi :" ++ "bogus" ++ ": there" = "hi :bogus: there" := by decide
    have e2 : "hi " ++ ((emojiMapW "bogus").getD (":" ++ "bogus" ++ ":")) ++ " there" =
        "hi :bogus: there" := by decide
    rw [e1, e2] at h
    exact h

/-- C8: construction fails synchronously when a required field (`server`,
`nickname`, `channelMapping`, `token`) is missing (JS-falsy), and succeeds when
all four are present and the mapping validates; no connection is involved
(`connect` is a separate method not called by the constructor). -/
theorem c8_construction (o : Options) :
    ((strTruthy o.server = false ∨ strTruthy o.nickname = false ∨
      o.channelMapping = none ∨ strTruthy o.token = false) →
      ∃ e, botConstruct o = Except.error e) ∧
    (∀ m, strTruthy o.server = true → strTruthy o.nickname = true →
      o.channelMapping = some m → strTruthy o.token = true →
      validateChannelMapping m = true →
      ∃ b, botConstruct o = Except.ok b) := by
  constructor
  · intro h
    unfold botConstruct
    repeat' split
    any_goals exact ⟨_, rfl⟩
    rcases h with h | h | h | h <;> simp_all
  · intro m hs hn hcm ht hv
    unfold botConstruct
    simp [hs, hn, hcm, ht, hv]

theorem c8_construction_witness :
    (∃ e, botConstruct { optsOk with token := none } = Except.error e) ∧
    (∃ b, botConstruct optsOk = Except.ok b) :=
  ⟨(c8_construction { optsOk with token := none }).1 (Or.inr (Or.inr (Or.inr rfl))),
   (c8_construction optsOk).2 [("general", "#chan")] rfl rfl rfl rfl (by decide)⟩

/-- C9: the Slack handler guard relays exactly the events of type "message"
whose subtype is absent or one of `me_message` / `file_share`; any other
subtype is never relayed to IRC. -/
theorem c9_subtype_guard (cfg : Bot) (emojiMap : String → Option String) (env : SlackEnv)
    (msg : SlackMessage) (h : msg.subtype ≠ some "") :
    (slackMessageRelayed msg = true ↔
      (msg.type = "message" ∧
        (msg.subtype = none ∨ msg.subtype = some "me_message" ∨
          msg.subtype = some "file_share"))) ∧
    (slackMessageRelayed msg = false → onSlackMessage cfg emojiMap env msg = []) := by
  constructor
  · unfold slackMessageRelayed subtypeTruthy ALLOWED_SUBTYPES
    cases hs : msg.subtype with
    | none => simp
    | some s =>
      have hne : ¬(s = "") := fun he => h (by rw [hs, he])
      by_cases h1 : s = "me_message"
      · simp [h1, hne, List.contains, List.elem]
      · by_cases h2 : s = "file_share"
        · simp [h1, h2, hne, List.contains, List.elem]
        · have b1 : (s == "me_message") = false := by simp [h1]
          have b2 : (s == "file_share") = false := by simp [h2]
          simp [h1, h2, hne, List.contains, List.elem, b1, b2]
  · intro hf
    unfold onSlackMessage
    simp [hf]

theorem c9_subtype_guard_witness :
    onSlackMessage cfgBridge (fun _ => none) envTriv msgJoinW = [] :=
  (c9_subtype_guard cfgBridge (fun _ => none) envTriv msgJoinW (by decide)).2 rfl

/-- C10: a join by the bridge itself is ignored entirely (no queue transition,
no notice); a part by the bridge itself is not ignored: `left` runs, and with
leave notices enabled a status text is handed to `sendToSlack`, which however
raises a TypeError inside the queue logic before posting anything, leaving the
notice buffered in a queue entry for the own nickname instead of emitted. -/
theorem c10_self_join_part :
    onIrcJoin cfgBridge envTriv qInit 0 "#c" "bridge" = (qInit, [], Except.ok ()) ∧
    (onIrcPart cfgBridge envTriv qInit "#c" "bridge").2.1 = [] ∧
    (onIrcPart cfgBridge envTriv qInit "#c" "bridge").2.2 =
      Except.error (JsError.typeError "reading timer of undefined") ∧
    lookupEntry (onIrcPart cfgBridge envTriv qInit "#c" "bridge").1 "#c" "bridge" =
      some ⟨true, ["*bridge* has left the IRC channel"], none, none⟩ :=
  ⟨rfl, rfl, rfl, rfl⟩

end SlackIrc
